import Mathlib

/-!
Verification of the humanization / synthetic-input-generation engine of the
LinkedIn-Automation-Tool repository (Go), shallowly embedded in Lean 4.

Modelling conventions, used uniformly below:
* Go `float64` arithmetic is embedded as exact arithmetic over `ℚ`;
  transcendental operations (`math.Sqrt`, `math.Cos`, `math.Sin`,
  `math.Atan2`) are passed in as uninterpreted function parameters
  (structure `MathPrims`), since the theorems below never depend on their
  values beyond the control flow the source performs on them.
* Go `int(x)` conversion of a float truncates toward zero: `ratTrunc`.
* The engine's random source (`math/rand.Rand`) is modelled by explicit
  streams of draws passed to each function: a `Float64()` draw is a `ℚ`
  (with hypotheses `0 ≤ d` and `d < 1` where a theorem needs them, matching
  Go's documented range), an `Intn n` draw is a `ℕ` consumed modulo `n`.
  Each Go draw corresponds to exactly one stream slot.
* `context.Context` cancellation is not modelled: all claims concern the
  non-cancelled executions, in which the Go `select` falls through.
* Go strings appear as Lean `String`; rune slices (`[]rune`) as `List Char`.
-/

/-- Go `int(x)` conversion of a float: truncation toward zero. -/
def ratTrunc (q : ℚ) : ℤ :=
if 0 ≤ q then ⌊q⌋ else ⌈q⌉

namespace Scroll

/-- `ScrollAction` from the scroll generator: pixels to scroll and the delay
(in whole milliseconds, as the Go code builds `time.Duration(ms) * Millisecond`
or `time.Duration(float)` of a millisecond count) after scrolling. -/
structure ScrollAction where
  Distance : ℤ
  DelayMs  : ℤ
  deriving DecidableEq, Repr

/-- The sequential clamping `if t < 0 { t = 0 }; if t > 1 { t = 1 }` opening
the scroll generator's `easeInOutCubic`. -/
def clamp01 (t : ℚ) : ℚ :=
if t < 0 then 0 else if t > 1 then 1 else t

/-- `easeInOutCubic` of the scroll generator (`part_004` lines 128–139):
clamps `t` to `[0,1]`, then `4t³` below `½`, else `1 - (-2t+2)³/2`. -/
def easeInOutCubic (t : ℚ) : ℚ :=
if clamp01 t < 1/2 then 4 * clamp01 t * clamp01 t * clamp01 t
else 1 - (-2 * clamp01 t + 2) ^ 3 / 2

/-- The normalized chunk position `t` of loop iteration `i`:
`float64(i)/float64(numChunks-1)`, overridden to `0.5` when
`numChunks == 1`. -/
def scrollT (numChunks i : ℕ) : ℚ :=
if numChunks = 1 then 1/2 else (i : ℚ) / ((numChunks - 1 : ℕ) : ℚ)

/-- The chunk size of one `HumanScroll` iteration: eased interpolation
between the chunk bounds, ±30% random variation (`variation` is the
iteration's `Float64()` draw), truncated to int and clamped to the
remaining distance. -/
def scrollChunkSize (variation : ℚ) (cMin cMax numChunks : ℕ) (i : ℕ)
    (remaining : ℤ) : ℤ :=
  let easeFactor := easeInOutCubic (scrollT numChunks i)
  let baseChunkSize : ℚ := (cMin : ℚ) + easeFactor * ((cMax : ℚ) - (cMin : ℚ))
  let chunkSize0 : ℤ := ratTrunc (baseChunkSize * (7/10 + variation * (6/10)))
  if chunkSize0 > remaining then remaining else chunkSize0

/-- The `ScrollAction` emitted by one `HumanScroll` iteration: the signed
chunk distance and the chunk-size-dependent delay with its 0–20ms jitter
(`delayMul` and `jitter` are the iteration's second and third `Float64()`
draws). -/
def scrollChunkAction (variation delayMul jitter : ℚ) (cMin cMax numChunks : ℕ)
    (mult : ℤ) (i : ℕ) (remaining : ℤ) : ScrollAction :=
  let chunkSize := scrollChunkSize variation cMin cMax numChunks i remaining
  let baseDelay : ℚ := 50 + (chunkSize : ℚ) * (1/2)
  let baseDelay2 : ℚ :=
    if i = 0 ∨ i = numChunks - 1 then baseDelay * (3/2 + delayMul * (1/2))
    else baseDelay * (7/10 + delayMul * (3/10))
  ⟨chunkSize * mult, ratTrunc (baseDelay2 + jitter * 20)⟩

/-- The `for i := 0; i < numChunks && remainingDistance > 0; i++` loop of
`HumanScroll`, recursing over the list of chunk indices with the remaining
distance threaded through. -/
def scrollLoop (variation delayMul jitter : ℕ → ℚ) (cMin cMax numChunks : ℕ)
    (mult : ℤ) : List ℕ → ℤ → List ScrollAction
  | [], _ => []
  | i :: rest, remaining =>
    if remaining ≤ 0 then []
    else
      scrollChunkAction (variation i) (delayMul i) (jitter i) cMin cMax
          numChunks mult i remaining ::
        scrollLoop variation delayMul jitter cMin cMax numChunks mult rest
          (remaining - scrollChunkSize (variation i) cMin cMax numChunks i
            remaining)

/-- Average chunk size `(chunkMin + chunkMax) / 2` computed on the
normalized (`≥ 1`) bounds; integer division as in Go. -/
def scrollAvgChunk (cMin cMax : ℕ) : ℕ :=
(cMin + cMax) / 2

/-- `numChunks`: `ceil(distance / avgChunkSize)` with a minimum of 1
(`part_004` lines 51–56); exact ceiling division of the integer inputs. -/
def scrollNumChunks (dist avg : ℕ) : ℕ :=
let n := (dist + avg - 1) / avg
if n < 1 then 1 else n

/-- Normalization `if chunkMin < 1 { chunkMin = 1 }` of `HumanScroll`; the
result is the non-negative Go int, so it lives in `ℕ`. -/
def chunkMinNorm (chunkMin : ℤ) : ℕ :=
if chunkMin < 1 then 1 else chunkMin.natAbs

/-- Normalization `if chunkMax < chunkMin { chunkMax = chunkMin }` of
`HumanScroll`, applied after `chunkMinNorm`. -/
def chunkMaxNorm (chunkMin chunkMax : ℤ) : ℕ :=
if chunkMax < (chunkMinNorm chunkMin : ℤ) then chunkMinNorm chunkMin
else chunkMax.natAbs

/-- `Scroll.HumanScroll` (`part_004` lines 32–125).  Normalizes the inputs
(negative distance to its absolute value, `chunkMin ≥ 1`,
`chunkMax ≥ chunkMin`), chooses the direction multiplier, runs the chunk
loop and, when any chunk was emitted, appends the zero-distance settle
pause of `200 + Intn 300` milliseconds. -/
def HumanScroll (variation delayMul jitter : ℕ → ℚ) (finalDraw : ℕ)
    (direction : String) (distance chunkMin chunkMax : ℤ) :
    List ScrollAction :=
  let dN : ℕ := distance.natAbs
  let cMinN : ℕ := chunkMinNorm chunkMin
  let cMaxN : ℕ := chunkMaxNorm chunkMin chunkMax
  let mult : ℤ := if direction = "up" ∨ direction = "backward" then -1 else 1
  let avg : ℕ := scrollAvgChunk cMinN cMaxN
  let numChunks : ℕ := scrollNumChunks dN avg
  let actions := scrollLoop variation delayMul jitter cMinN cMaxN numChunks
    mult (List.range numChunks) (dN : ℤ)
  if actions = [] then []
  else actions ++ [⟨0, 200 + (finalDraw % 300 : ℕ)⟩]

end Scroll

namespace Keyboard

/-- `ActionType` from `keyboard.go` (lines 117–122). -/
inductive ActionType where
  | Key
  | Delay
  deriving DecidableEq, Repr, Inhabited

/-- The backspace rune `'\b'` (U+0008) emitted by typo corrections. -/
def backspaceChar : Char := Char.ofNat 8

/-- `KeyAction` from `keyboard.go` (lines 110–114): action type, key pressed
(Go field `Type` is spelled `Typ` here since `Type` is reserved in Lean) and
the delay after the action in nanoseconds (Go `time.Duration`). -/
structure KeyAction where
  Typ     : ActionType
  Key     : String
  DelayNs : ℤ
  deriving DecidableEq, Repr, Inhabited

/-- The QWERTY adjacency table of `generateTypo` (`keyboard.go` lines
128–155); characters absent from the Go map give the empty list. -/
def keyboardLayout : Char → List Char
  | 'a' => ['s', 'q', 'w', 'z', 'x']
  | 'b' => ['v', 'g', 'h', 'n']
  | 'c' => ['x', 'd', 'f', 'v']
  | 'd' => ['s', 'e', 'r', 'f', 'c', 'x']
  | 'e' => ['w', 'r', 'd', 's']
  | 'f' => ['d', 'r', 't', 'g', 'v', 'c']
  | 'g' => ['f', 't', 'y', 'h', 'b', 'v']
  | 'h' => ['g', 'y', 'u', 'j', 'n', 'b']
  | 'i' => ['u', 'o', 'k', 'j']
  | 'j' => ['h', 'u', 'i', 'k', 'm', 'n']
  | 'k' => ['j', 'i', 'o', 'l', ',', 'm']
  | 'l' => ['k', 'o', 'p', ';', '.', ',']
  | 'm' => ['n', 'j', 'k', ',']
  | 'n' => ['b', 'h', 'j', 'm']
  | 'o' => ['i', 'p', 'l', 'k']
  | 'p' => ['o', '[', ']', 'l', ';']
  | 'q' => ['w', 'a']
  | 'r' => ['e', 't', 'f', 'd']
  | 's' => ['a', 'w', 'e', 'd', 'x', 'z']
  | 't' => ['r', 'y', 'g', 'f']
  | 'u' => ['y', 'i', 'j', 'h']
  | 'v' => ['c', 'f', 'g', 'b']
  | 'w' => ['q', 'e', 's', 'a']
  | 'x' => ['z', 's', 'd', 'c']
  | 'y' => ['t', 'u', 'h', 'g']
  | 'z' => ['a', 's', 'x']
  | _ => []

/-- `generateTypo` (`keyboard.go` lines 126–188): lowercase for the table
lookup, pick a neighbor with the `Intn` draw `pick` (always in range, so the
`getD` default is never used), restore case by subtracting 32; fallbacks:
`'x'` for space, predecessor digit for digits (`'9'` for `'0'`), else the
character itself. -/
def generateTypo (pick : ℕ) (char : Char) : Char :=
  let isUpper := 'A' ≤ char ∧ char ≤ 'Z'
  let charLower := if isUpper then Char.ofNat (char.toNat + 32) else char
  let nearby := keyboardLayout charLower
  if nearby.length > 0 then
    let typoRune := nearby.getD (pick % nearby.length) char
    if isUpper then Char.ofNat (typoRune.toNat - 32) else typoRune
  else if char = ' ' then 'x'
  else if '0' ≤ char ∧ char ≤ '9' then
    if char = '0' then '9' else Char.ofNat (char.toNat - 1)
  else char

/-- The per-character-category delay multiplier of `calculateDelay`
(`keyboard.go` lines 198–208): the `switch` multiplies the delay by a drawn
factor for whitespace, sentence punctuation and backspace, and leaves it
unchanged otherwise (`catDraw` is the branch's `Float64()` draw, unused in
the default case exactly as the Go switch draws nothing there). -/
def categoryMultiplier (catDraw : ℚ) (char : Char) : ℚ :=
  if char = ' ' ∨ char = '\n' ∨ char = '\t' then 3/2 + catDraw * (1/2)
  else if char = '.' ∨ char = ',' ∨ char = '!' ∨ char = '?' then
    6/5 + catDraw * (3/10)
  else if char = backspaceChar then 7/10 + catDraw * (1/5)
  else 1

/-- `delaySeconds` as computed by `calculateDelay` (`keyboard.go` lines
192–213) before the `time.Duration` conversion: base delay × (0.8 + 0.4 ·
varDraw) variance, × category multiplier, + jitterDraw · 0.01 jitter. -/
def calculateDelaySeconds (varDraw catDraw jitterDraw : ℚ) (baseDelay : ℚ)
    (char : Char) : ℚ :=
  baseDelay * (4/5 + varDraw * (2/5)) * categoryMultiplier catDraw char
    + jitterDraw * (1/100)

/-- The three `Float64()` draws consumed by one `calculateDelay` call. -/
structure DelayDraws where
  varDraw : ℚ
  catDraw : ℚ
  jitDraw : ℚ

/-- `calculateDelay`'s returned `time.Duration`:
`time.Duration(delaySeconds * float64(time.Second))`, i.e. the seconds value
truncated to whole nanoseconds. -/
def calcDelayNs (d : DelayDraws) (baseDelay : ℚ) (char : Char) : ℤ :=
  ratTrunc (calculateDelaySeconds d.varDraw d.catDraw d.jitDraw baseDelay char
    * 1000000000)

/-- The four actions emitted by the typo branch of `HumanType`
(`keyboard.go` lines 64–93): typo character (delay computed for the
intended character, as in the source), notice pause of `100 + Intn 200` ms,
backspace, correct character.  `d0`, `d1`, `d2` are the draw triples of the
three `calculateDelay` calls and `pausePick` the pause's `Intn` draw. -/
def typoGroup (typoPick pausePick : ℕ) (d0 d1 d2 : DelayDraws) (base : ℚ)
    (c : Char) : List KeyAction :=
  [⟨ActionType.Key, String.mk [generateTypo typoPick c], calcDelayNs d0 base c⟩,
   ⟨ActionType.Delay, "", ((100 + pausePick % 200 : ℕ) : ℤ) * 1000000⟩,
   ⟨ActionType.Key, String.mk [backspaceChar], calcDelayNs d1 base backspaceChar⟩,
   ⟨ActionType.Key, String.mk [c], calcDelayNs d2 base c⟩]

/-- The single action of the no-typo branch of `HumanType` (`keyboard.go`
lines 94–101). -/
def directAction (d : DelayDraws) (base : ℚ) (c : Char) : KeyAction :=
  ⟨ActionType.Key, String.mk [c], calcDelayNs d base c⟩

/-- The character loop of `HumanType` (`keyboard.go` lines 50–104),
recursing over the rune list with the running index `i`.  The Go guard
`shouldTypo && i < len(textRunes)-1` is `typoDraw i < tp ∧ rest ≠ []`,
since `i` is the position of `c` in the full rune list. -/
def typeLoop (tp base : ℚ) (typoDraw : ℕ → ℚ) (typoPick pausePick : ℕ → ℕ)
    (dd0 dd1 dd2 : ℕ → DelayDraws) : List Char → ℕ → List KeyAction
  | [], _ => []
  | c :: rest, i =>
    if typoDraw i < tp ∧ rest ≠ [] then
      typoGroup (typoPick i) (pausePick i) (dd0 i) (dd1 i) (dd2 i) base c
        ++ typeLoop tp base typoDraw typoPick pausePick dd0 dd1 dd2 rest (i + 1)
    else
      directAction (dd0 i) base c
        :: typeLoop tp base typoDraw typoPick pausePick dd0 dd1 dd2 rest (i + 1)

/-- Normalization `if wpmMin < 1 { wpmMin = 1 }` of `HumanType`. -/
def wpmMinNorm (wpmMin : ℤ) : ℤ :=
if wpmMin < 1 then 1 else wpmMin

/-- Normalization `if wpmMax < wpmMin { wpmMax = wpmMin }` of `HumanType`,
applied after `wpmMinNorm`. -/
def wpmMaxNorm (wpmMin wpmMax : ℤ) : ℤ :=
if wpmMax < wpmMinNorm wpmMin then wpmMinNorm wpmMin else wpmMax

/-- Clamping of the typo probability to `[0,1]` in `HumanType`. -/
def typoProbNorm (tp : ℚ) : ℚ :=
if tp < 0 then 0 else if tp > 1 then 1 else tp

/-- The per-call WPM draw `wpm := wpmMin + Intn(wpmMax-wpmMin+1)`
(`keyboard.go` line 47); the span is ≥ 1 after normalization, so `natAbs`
is the identity on it. -/
def typingWpm (wpmDraw : ℕ) (wpmMin wpmMax : ℤ) : ℤ :=
  wpmMinNorm wpmMin
    + ((wpmDraw % (wpmMaxNorm wpmMin wpmMax - wpmMinNorm wpmMin + 1).natAbs : ℕ) : ℤ)

/-- `baseDelayPerChar := (60.0 / float64(wpm)) / 6.0` (`keyboard.go`
line 48). -/
def typingBaseDelay (wpmDraw : ℕ) (wpmMin wpmMax : ℤ) : ℚ :=
  (60 / ((typingWpm wpmDraw wpmMin wpmMax : ℤ) : ℚ)) / 6

/-- `Keyboard.HumanType` (`keyboard.go` lines 26–107): normalizes the WPM
bounds and typo probability, draws one WPM for the whole call, and runs the
character loop from index 0. -/
def HumanType (typoDraw : ℕ → ℚ) (typoPick pausePick : ℕ → ℕ)
    (dd0 dd1 dd2 : ℕ → DelayDraws) (wpmDraw : ℕ) (text : List Char)
    (wpmMin wpmMax : ℤ) (typoProb : ℚ) : List KeyAction :=
  typeLoop (typoProbNorm typoProb) (typingBaseDelay wpmDraw wpmMin wpmMax)
    typoDraw typoPick pausePick dd0 dd1 dd2 text 0

/-- The claim C4 reading of "the correct emissions": the 4th action of each
4-action typo group and the sole action of a trailing 1-action group.  This
is the spec-side observation function used to state reconstruction. -/
def correctKeys : List KeyAction → List String
  | _ :: _ :: _ :: d :: rest => d.Key :: correctKeys rest
  | [a] => [a.Key]
  | _ => []

end Keyboard

namespace Mouse

/-- `Point` from `mouse.go` (lines 47–50). -/
structure Point where
  X : ℚ
  Y : ℚ
  deriving DecidableEq, Repr

/-- `MouseConfig` from `mouse.go` (lines 26–37). -/
structure MouseConfig where
  SpeedMin              : ℚ
  SpeedMax              : ℚ
  OvershootChance       : ℚ
  OvershootDistMin      : ℚ
  OvershootDistMax      : ℚ
  ControlPointOffsetMin : ℚ
  ControlPointOffsetMax : ℚ
  ControlPointSpreadMin : ℚ
  ControlPointSpreadMax : ℚ

/-- The transcendental float primitives used by the mouse path generator
(`math.Sqrt`, `math.Cos`, `math.Sin`, `math.Atan2`), embedded as
uninterpreted functions over `ℚ`: no theorem below depends on their values
beyond the branching the Go code performs on them. -/
structure MathPrims where
  sqrt  : ℚ → ℚ
  cos   : ℚ → ℚ
  sin   : ℚ → ℚ
  atan2 : ℚ → ℚ → ℚ

/-- `calculateDistance` (`mouse.go` lines 89–91). -/
def calculateDistance (P : MathPrims) (p1 p2 : Point) : ℚ :=
  P.sqrt ((p2.X - p1.X) ^ 2 + (p2.Y - p1.Y) ^ 2)

/-- The mouse generator's `easeInOutCubic` (`mouse.go` lines 223–228): no
input clamping, unlike the scroll generator's variant. -/
def easeInOutCubic (t : ℚ) : ℚ :=
if t < 1/2 then 4 * t * t * t else 1 - (-2 * t + 2) ^ 3 / 2

/-- `cubicBezier` (`mouse.go` lines 207–219). -/
def cubicBezier (p0 p1 p2 p3 : Point) (t : ℚ) : Point :=
  let mt := 1 - t
  let mt2 := mt * mt
  let mt3 := mt2 * mt
  let t2 := t * t
  let t3 := t2 * t
  ⟨mt3 * p0.X + 3 * mt2 * t * p1.X + 3 * mt * t2 * p2.X + t3 * p3.X,
   mt3 * p0.Y + 3 * mt2 * t * p1.Y + 3 * mt * t2 * p2.Y + t3 * p3.Y⟩

/-- `generateBezierPoints` (`mouse.go` lines 186–204).  The Go function
takes the four control points as a slice and panics when its length is not
4; every call site passes exactly four, so the embedding takes them
directly. -/
def generateBezierPoints (p0 p1 p2 p3 : Point) (steps : ℕ) : List Point :=
  (List.range steps).map fun i : ℕ =>
    cubicBezier p0 p1 p2 p3 (easeInOutCubic ((i : ℚ) / ((steps - 1 : ℕ) : ℚ)))

/-- `generateControlPoints` (`mouse.go` lines 149–183), returning
`(P0, P1, P2, P3)`.  `scaleDraw`, `spread1Draw`, `spread2Draw` are the
three `Float64()` draws (the scale draw is consumed only inside the
`perpLength > 0` branch in Go; as a named parameter that reordering is
observationally identical). -/
def generateControlPoints (P : MathPrims) (cfg : MouseConfig)
    (scaleDraw spread1Draw spread2Draw : ℚ) (start e : Point) :
    Point × Point × Point × Point :=
  let dx := e.X - start.X
  let dy := e.Y - start.Y
  let perpX := -dy
  let perpY := dx
  let perpLength := P.sqrt (perpX * perpX + perpY * perpY)
  let scale := (scaleDraw * (cfg.ControlPointOffsetMax
      - cfg.ControlPointOffsetMin) + cfg.ControlPointOffsetMin)
    * P.sqrt (dx * dx + dy * dy)
  let perpX2 := if perpLength > 0 then (perpX / perpLength) * scale else perpX
  let perpY2 := if perpLength > 0 then (perpY / perpLength) * scale else perpY
  let spread1 := cfg.ControlPointSpreadMin
    + spread1Draw * (cfg.ControlPointSpreadMax - cfg.ControlPointSpreadMin)
  let spread2 := cfg.ControlPointSpreadMin
    + spread2Draw * (cfg.ControlPointSpreadMax - cfg.ControlPointSpreadMin)
  (start,
   ⟨start.X + perpX2 * spread1, start.Y + perpY2 * spread1⟩,
   ⟨e.X - perpX2 * spread2, e.Y - perpY2 * spread2⟩,
   e)

/-- `calculateSteps` (`mouse.go` lines 134–145): `int(distance /
(stepDivisor · speedMultiplier))` clamped to `[minSteps, maxSteps] =
[10, 100]`; the result is a non-negative count, returned as `ℕ`. -/
def calculateSteps (cfg : MouseConfig) (speedDraw : ℚ) (distance : ℚ) : ℕ :=
  let speedMultiplier := cfg.SpeedMin + speedDraw * (cfg.SpeedMax - cfg.SpeedMin)
  let steps := ratTrunc (distance / (10 * speedMultiplier))
  (if steps < 10 then 10 else if steps > 100 then 100 else steps).toNat

/-- The correction segment's step count (`mouse.go` lines 126–129):
`int(originalDistance · correctionStepFactor)` with `correctionStepFactor
= 0.2`, floor-clamped to `minCorrectionSteps = 5`. -/
def correctionSteps (originalDistance : ℚ) : ℕ :=
  let steps := ratTrunc (originalDistance * (1/5))
  (if steps < 5 then 5 else steps).toNat

/-- `generateCurvePath` (`mouse.go` lines 117–121); `cp` is the triple of
control-point draws and `speedDraw` the step-count draw. -/
def generateCurvePath (P : MathPrims) (cfg : MouseConfig) (cp : ℚ × ℚ × ℚ)
    (speedDraw : ℚ) (start e : Point) (totalDistance : ℚ) : List Point :=
  let cps := generateControlPoints P cfg cp.1 cp.2.1 cp.2.2 start e
  generateBezierPoints cps.1 cps.2.1 cps.2.2.1 cps.2.2.2
    (calculateSteps cfg speedDraw totalDistance)

/-- `generateCorrectionPath` (`mouse.go` lines 124–131): same control-point
method, but the step count derives from `originalDistance` — the
start-to-end distance of the whole move, not this segment's length. -/
def generateCorrectionPath (P : MathPrims) (cfg : MouseConfig)
    (cp : ℚ × ℚ × ℚ) (start e : Point) (originalDistance : ℚ) : List Point :=
  let cps := generateControlPoints P cfg cp.1 cp.2.1 cp.2.2 start e
  generateBezierPoints cps.1 cps.2.1 cps.2.2.1 cps.2.2.2
    (correctionSteps originalDistance)

/-- `determineTargets` (`mouse.go` lines 94–109): returns `(final,
overshoot)`; the overshoot point extends past `end` along the start→end
direction when the overshoot branch fires. -/
def determineTargets (P : MathPrims) (cfg : MouseConfig)
    (overshootDraw factorDraw : ℚ) (start e : Point) (distance : ℚ)
    (shouldOvershoot : Bool) : Point × Point :=
  if shouldOvershoot ∧ overshootDraw < cfg.OvershootChance then
    let overshootFactor := cfg.OvershootDistMin
      + factorDraw * (cfg.OvershootDistMax - cfg.OvershootDistMin)
    let overshootDist := distance * overshootFactor
    let angle := P.atan2 (e.Y - start.Y) (e.X - start.X)
    (e, ⟨e.X + overshootDist * P.cos angle, e.Y + overshootDist * P.sin angle⟩)
  else (e, e)

/-- `hasOvershot` (`mouse.go` lines 112–114). -/
def hasOvershot (final overshoot : Point) : Bool :=
  decide (final.X ≠ overshoot.X ∨ final.Y ≠ overshoot.Y)

/-- `GetPath` (`mouse.go` lines 64–86): below the minimal movement
distance return `[end]`; otherwise the main Bézier segment to the (possibly
overshot) primary target, plus the corrective segment back to the final
target when an overshoot occurred.  `cpA` and `cpB` are the control-point
draw triples of the two segments. -/
def GetPath (P : MathPrims) (cfg : MouseConfig)
    (overshootDraw factorDraw : ℚ) (cpA : ℚ × ℚ × ℚ) (speedDraw : ℚ)
    (cpB : ℚ × ℚ × ℚ) (startX startY endX endY : ℚ)
    (shouldOvershoot : Bool) : List Point :=
  let start : Point := ⟨startX, startY⟩
  let e : Point := ⟨endX, endY⟩
  let distance := calculateDistance P start e
  if distance < 1 then [e]
  else
    let td := determineTargets P cfg overshootDraw factorDraw start e
      distance shouldOvershoot
    let points := generateCurvePath P cfg cpA speedDraw start td.2 distance
    if hasOvershot td.1 td.2 then
      points ++ generateCorrectionPath P cfg cpB td.2 td.1 distance
    else points

end Mouse

namespace Facade

/-- `core.StealthConfig` (`domain.go` lines 47–63).  The `OvershootDist*`
and `ControlPoint*` fields are read by `NewStealth` (`stealth.go` lines
26–31) although the `domain.go` revision in this snapshot does not declare
them; they are included here exactly as `NewStealth` reads them. -/
structure StealthConfig where
  TypingSpeedMin        : ℤ
  TypingSpeedMax        : ℤ
  TypoProbability       : ℚ
  MouseSpeedMin         : ℚ
  MouseSpeedMax         : ℚ
  OvershootChance       : ℚ
  OvershootDistMin      : ℚ
  OvershootDistMax      : ℚ
  ControlPointOffsetMin : ℚ
  ControlPointOffsetMax : ℚ
  ControlPointSpreadMin : ℚ
  ControlPointSpreadMax : ℚ
  ScrollChunkMin        : ℤ
  ScrollChunkMax        : ℤ
  BaseDelayMin          : ℚ
  BaseDelayMax          : ℚ
  ViewportWidthMin      : ℤ
  ViewportWidthMax      : ℤ
  ViewportHeightMin     : ℤ
  ViewportHeightMax     : ℤ
  DebugStealth          : Bool

/-- The `Stealth` facade's state (`stealth.go` lines 11–17): the Mouse's
stored configuration and the shared `core.StealthConfig`.  Keyboard,
Jitter and Scroll carry only their random source, which the draw-stream
embedding supplies per call. -/
structure Stealth where
  mouse  : Mouse.MouseConfig
  config : StealthConfig

/-- `NewStealth` (`stealth.go` lines 20–38): copies the configuration
values into the Mouse configuration and stores the config reference —
no range or sign validation of any kind is performed. -/
def NewStealth (config : StealthConfig) : Stealth :=
  { mouse :=
      { SpeedMin := config.MouseSpeedMin
        SpeedMax := config.MouseSpeedMax
        OvershootChance := config.OvershootChance
        OvershootDistMin := config.OvershootDistMin
        OvershootDistMax := config.OvershootDistMax
        ControlPointOffsetMin := config.ControlPointOffsetMin
        ControlPointOffsetMax := config.ControlPointOffsetMax
        ControlPointSpreadMin := config.ControlPointSpreadMin
        ControlPointSpreadMax := config.ControlPointSpreadMax }
    config := config }

/-- The default-substitution step of `Stealth.HumanType` (`stealth.go`
lines 57–67): a WPM bound equal to 0 falls back to the configuration
default; the typo probability falls back only when negative. -/
def HumanTypeArgs (s : Stealth) (wpmMin wpmMax : ℤ) (typoProb : ℚ) :
    ℤ × ℤ × ℚ :=
  (if wpmMin = 0 then s.config.TypingSpeedMin else wpmMin,
   if wpmMax = 0 then s.config.TypingSpeedMax else wpmMax,
   if typoProb < 0 then s.config.TypoProbability else typoProb)

/-- `Stealth.HumanType` (`stealth.go` lines 57–72): default substitution,
then delegation to `Keyboard.HumanType` (the Go method returns only the
error; the embedding keeps the generated action list). -/
def StealthHumanType (s : Stealth) (typoDraw : ℕ → ℚ)
    (typoPick pausePick : ℕ → ℕ) (dd0 dd1 dd2 : ℕ → Keyboard.DelayDraws)
    (wpmDraw : ℕ) (text : List Char) (wpmMin wpmMax : ℤ) (typoProb : ℚ) :
    List Keyboard.KeyAction :=
  Keyboard.HumanType typoDraw typoPick pausePick dd0 dd1 dd2 wpmDraw text
    (HumanTypeArgs s wpmMin wpmMax typoProb).1
    (HumanTypeArgs s wpmMin wpmMax typoProb).2.1
    (HumanTypeArgs s wpmMin wpmMax typoProb).2.2

/-- The default-substitution step of `Stealth.RandomSleep` (`stealth.go`
lines 75–85): base and variance seconds equal to 0 fall back to the
configuration (`BaseDelayMin` and `BaseDelayMax - BaseDelayMin`). -/
def RandomSleepArgs (s : Stealth) (baseSeconds varianceSeconds : ℚ) :
    ℚ × ℚ :=
  (if baseSeconds = 0 then s.config.BaseDelayMin else baseSeconds,
   if varianceSeconds = 0 then s.config.BaseDelayMax - s.config.BaseDelayMin
   else varianceSeconds)

/-- The default-substitution step of `Stealth.HumanScroll` (`stealth.go`
lines 88–99): chunk bounds equal to 0 fall back to the configuration. -/
def HumanScrollArgs (s : Stealth) (chunkMin chunkMax : ℤ) : ℤ × ℤ :=
  (if chunkMin = 0 then s.config.ScrollChunkMin else chunkMin,
   if chunkMax = 0 then s.config.ScrollChunkMax else chunkMax)

/-- `Stealth.HumanScroll` (`stealth.go` lines 88–99): default substitution
then delegation to `Scroll.HumanScroll`. -/
def StealthHumanScroll (s : Stealth) (variation delayMul jitter : ℕ → ℚ)
    (finalDraw : ℕ) (direction : String) (distance chunkMin chunkMax : ℤ) :
    List Scroll.ScrollAction :=
  Scroll.HumanScroll variation delayMul jitter finalDraw direction distance
    (HumanScrollArgs s chunkMin chunkMax).1
    (HumanScrollArgs s chunkMin chunkMax).2

end Facade

namespace Scroll

lemma clamp01_nonneg (t : ℚ) : 0 ≤ clamp01 t := by
  unfold clamp01; split_ifs <;> linarith

lemma clamp01_le_one (t : ℚ) : clamp01 t ≤ 1 := by
  unfold clamp01; split_ifs <;> linarith

lemma easeInOutCubic_nonneg (t : ℚ) : 0 ≤ easeInOutCubic t := by
  have h0 := clamp01_nonneg t
  have h1 := clamp01_le_one t
  unfold easeInOutCubic
  split_ifs with h
  · positivity
  · nlinarith [pow_nonneg (by linarith : (0:ℚ) ≤ -2 * clamp01 t + 2) 3,
      sq_nonneg (-2 * clamp01 t + 2)]

lemma ratTrunc_nonneg {q : ℚ} (h : 0 ≤ q) : 0 ≤ ratTrunc q := by
  unfold ratTrunc
  rw [if_pos h]
  exact Int.floor_nonneg.mpr h

lemma scrollChunkSize_nonneg (v : ℚ) (hv : 0 ≤ v) (cMin cMax numChunks i : ℕ)
    (h12 : cMin ≤ cMax) (remaining : ℤ) (hr : 0 < remaining) :
    0 ≤ scrollChunkSize v cMin cMax numChunks i remaining := by
  simp only [scrollChunkSize]
  split_ifs with h
  · exact le_of_lt hr
  · apply ratTrunc_nonneg
    have he := easeInOutCubic_nonneg (scrollT numChunks i)
    have hc : (cMin : ℚ) ≤ (cMax : ℚ) := by exact_mod_cast h12
    have hcm : (0:ℚ) ≤ (cMin : ℚ) := by positivity
    nlinarith [mul_nonneg he (by linarith : (0:ℚ) ≤ (cMax:ℚ) - (cMin:ℚ))]

lemma scrollChunkSize_le (v : ℚ) (cMin cMax numChunks i : ℕ) (remaining : ℤ) :
    scrollChunkSize v cMin cMax numChunks i remaining ≤ remaining := by
  simp only [scrollChunkSize]
  split_ifs with h
  · exact le_refl _
  · exact le_of_not_lt h

lemma scrollChunkAction_Distance (v d j : ℚ) (cMin cMax numChunks : ℕ)
    (mult : ℤ) (i : ℕ) (remaining : ℤ) :
    (scrollChunkAction v d j cMin cMax numChunks mult i remaining).Distance
      = scrollChunkSize v cMin cMax numChunks i remaining * mult := rfl

lemma scrollLoop_absSum_le (variation delayMul jitter : ℕ → ℚ)
    (hv : ∀ n, 0 ≤ variation n) (cMin cMax numChunks : ℕ)
    (h12 : cMin ≤ cMax) (mult : ℤ) (hm : mult = 1 ∨ mult = -1) :
    ∀ (idx : List ℕ) (remaining : ℤ), 0 ≤ remaining →
      ((scrollLoop variation delayMul jitter cMin cMax numChunks mult idx
          remaining).map (fun a => |a.Distance|)).sum ≤ remaining
  | [], remaining, hr => by
      simpa [scrollLoop] using hr
  | i :: rest, remaining, hr => by
      by_cases h : remaining ≤ 0
      · simpa [scrollLoop, h] using hr
      · have hr' : 0 < remaining := lt_of_not_le h
        have hs0 := scrollChunkSize_nonneg (variation i) (hv i) cMin cMax
          numChunks i h12 remaining hr'
        have hs1 := scrollChunkSize_le (variation i) cMin cMax numChunks i
          remaining
        have hrec := scrollLoop_absSum_le variation delayMul jitter hv cMin
          cMax numChunks h12 mult hm rest
          (remaining - scrollChunkSize (variation i) cMin cMax numChunks i
            remaining) (by linarith)
        simp only [scrollLoop, if_neg h, List.map_cons, List.sum_cons,
          scrollChunkAction_Distance]
        have habs : |scrollChunkSize (variation i) cMin cMax numChunks i
            remaining * mult|
            = scrollChunkSize (variation i) cMin cMax numChunks i remaining := by
          rcases hm with hm | hm <;>
            simp [hm, abs_of_nonneg, hs0, abs_of_nonneg hs0]
        rw [habs]
        linarith

lemma scrollLoop_sign (variation delayMul jitter : ℕ → ℚ)
    (hv : ∀ n, 0 ≤ variation n) (cMin cMax numChunks : ℕ)
    (h12 : cMin ≤ cMax) (mult : ℤ) :
    ∀ (idx : List ℕ) (remaining : ℤ) (a : ScrollAction),
      a ∈ scrollLoop variation delayMul jitter cMin cMax numChunks mult idx
        remaining →
      ∃ s : ℤ, 0 ≤ s ∧ a.Distance = s * mult
  | [], remaining, a, ha => by simp [scrollLoop] at ha
  | i :: rest, remaining, a, ha => by
      by_cases h : remaining ≤ 0
      · simp [scrollLoop, h] at ha
      · have hr' : 0 < remaining := lt_of_not_le h
        simp only [scrollLoop, if_neg h, List.mem_cons] at ha
        rcases ha with ha | ha
        · refine ⟨scrollChunkSize (variation i) cMin cMax numChunks i
            remaining, ?_, ?_⟩
          · exact scrollChunkSize_nonneg (variation i) (hv i) cMin cMax
              numChunks i h12 remaining hr'
          · rw [ha]; exact scrollChunkAction_Distance _ _ _ _ _ _ _ _ _
        · exact scrollLoop_sign variation delayMul jitter hv cMin cMax
            numChunks h12 mult rest _ a ha

lemma scrollLoop_length_le (variation delayMul jitter : ℕ → ℚ)
    (cMin cMax numChunks : ℕ) (mult : ℤ) :
    ∀ (idx : List ℕ) (remaining : ℤ),
      (scrollLoop variation delayMul jitter cMin cMax numChunks mult idx
        remaining).length ≤ idx.length
  | [], _ => by simp [scrollLoop]
  | i :: rest, remaining => by
      by_cases h : remaining ≤ 0
      · simp [scrollLoop, h]
      · simp only [scrollLoop, if_neg h, List.length_cons]
        have := scrollLoop_length_le variation delayMul jitter cMin cMax
          numChunks mult rest
          (remaining - scrollChunkSize (variation i) cMin cMax numChunks i
            remaining)
        omega

lemma chunkMinNorm_pos (chunkMin : ℤ) : 1 ≤ chunkMinNorm chunkMin := by
  unfold chunkMinNorm; split_ifs with h <;> omega

lemma chunkMinNorm_le_chunkMaxNorm (chunkMin chunkMax : ℤ) :
    chunkMinNorm chunkMin ≤ chunkMaxNorm chunkMin chunkMax := by
  unfold chunkMaxNorm; split_ifs with h <;> omega

lemma scrollNumChunks_pos (dist avg : ℕ) : 1 ≤ scrollNumChunks dist avg := by
  simp only [scrollNumChunks]; split_ifs with h <;> omega

end Scroll

namespace Keyboard

lemma getLastD_irrel : ∀ (l : List Char), l ≠ [] → ∀ d1 d2 : Char,
    l.getLastD d1 = l.getLastD d2 := by
  intro l h d1 d2
  rw [List.getLastD_eq_getLast?, List.getLastD_eq_getLast?,
    List.getLast?_eq_getLast l h]
  rfl

lemma typeLoop_no_typo (base : ℚ) (typoDraw : ℕ → ℚ)
    (typoPick pausePick : ℕ → ℕ) (dd0 dd1 dd2 : ℕ → DelayDraws)
    (hn : ∀ n, 0 ≤ typoDraw n) :
    ∀ (l : List Char) (i : ℕ),
      typeLoop 0 base typoDraw typoPick pausePick dd0 dd1 dd2 l i
        = (List.enumFrom i l).map (fun p => directAction (dd0 p.1) base p.2)
  | [], i => by simp [typeLoop, List.enumFrom]
  | c :: rest, i => by
      have hcond : ¬(typoDraw i < 0 ∧ rest ≠ []) := by
        rintro ⟨hlt, -⟩
        exact absurd hlt (not_lt.mpr (hn i))
      simp only [typeLoop, if_neg hcond, List.enumFrom, List.map_cons]
      rw [typeLoop_no_typo base typoDraw typoPick pausePick dd0 dd1 dd2 hn
        rest (i + 1)]

lemma typeLoop_all_typo (base : ℚ) (typoDraw : ℕ → ℚ)
    (typoPick pausePick : ℕ → ℕ) (dd0 dd1 dd2 : ℕ → DelayDraws)
    (h1 : ∀ n, typoDraw n < 1) :
    ∀ (l : List Char) (i : ℕ), l ≠ [] →
      typeLoop 1 base typoDraw typoPick pausePick dd0 dd1 dd2 l i
        = (List.enumFrom i l.dropLast).flatMap
            (fun p => typoGroup (typoPick p.1) (pausePick p.1) (dd0 p.1)
              (dd1 p.1) (dd2 p.1) base p.2)
          ++ [directAction (dd0 (i + (l.length - 1))) base (l.getLastD ' ')]
  | [], _, h => absurd rfl h
  | [c], i, _ => by
      have hcond : ¬(typoDraw i < 1 ∧ ([] : List Char) ≠ []) := by
        rintro ⟨-, hne⟩
        exact hne rfl
      simp [typeLoop, if_neg hcond, List.enumFrom, List.getLastD]
  | c :: c2 :: rest, i, _ => by
      have hcond : typoDraw i < 1 ∧ (c2 :: rest) ≠ [] :=
        ⟨h1 i, List.cons_ne_nil _ _⟩
      have ih := typeLoop_all_typo base typoDraw typoPick pausePick dd0 dd1
        dd2 h1 (c2 :: rest) (i + 1) (List.cons_ne_nil _ _)
      simp only [typeLoop] at ih ⊢
      rw [if_pos hcond, ih]
      have hdrop : (c :: c2 :: rest).dropLast = c :: (c2 :: rest).dropLast :=
        rfl
      have hidx : i + ((c :: c2 :: rest).length - 1)
          = (i + 1) + ((c2 :: rest).length - 1) := by
        simp [List.length_cons]; omega
      have hlast : (c :: c2 :: rest).getLastD ' ' = (c2 :: rest).getLastD ' ' := by
        rw [List.getLastD_eq_getLast?, List.getLastD_eq_getLast?,
          List.getLast?_cons_cons]
      rw [hdrop, hidx, hlast]
      simp only [List.enumFrom, List.flatMap_cons, List.append_assoc]

lemma correctKeys_typoGroup_append (tp pp : ℕ) (d0 d1 d2 : DelayDraws)
    (base : ℚ) (c : Char) (rest : List KeyAction) :
    correctKeys (typoGroup tp pp d0 d1 d2 base c ++ rest)
      = String.mk [c] :: correctKeys rest := rfl

lemma correctKeys_flatMap (base : ℚ) (typoPick pausePick : ℕ → ℕ)
    (dd0 dd1 dd2 : ℕ → DelayDraws) :
    ∀ (ps : List (ℕ × Char)) (tail : List KeyAction),
      correctKeys ((ps.flatMap fun p => typoGroup (typoPick p.1)
          (pausePick p.1) (dd0 p.1) (dd1 p.1) (dd2 p.1) base p.2) ++ tail)
        = ps.map (fun p => String.mk [p.2]) ++ correctKeys tail
  | [], tail => by simp
  | p :: ps, tail => by
      rw [List.flatMap_cons, List.append_assoc, correctKeys_typoGroup_append,
        correctKeys_flatMap base typoPick pausePick dd0 dd1 dd2 ps tail,
        List.map_cons, List.cons_append]

end Keyboard

namespace Mouse

lemma easeInOutCubic_one : easeInOutCubic 1 = 1 := by
  norm_num [easeInOutCubic]

lemma cubicBezier_one (p0 p1 p2 p3 : Point) : cubicBezier p0 p1 p2 p3 1 = p3 := by
  simp only [cubicBezier]
  cases p3 with
  | mk X Y =>
    simp only [Point.mk.injEq]
    constructor <;> ring

lemma generateBezierPoints_length (p0 p1 p2 p3 : Point) (steps : ℕ) :
    (generateBezierPoints p0 p1 p2 p3 steps).length = steps := by
  simp [generateBezierPoints]

lemma generateBezierPoints_getLast (p0 p1 p2 p3 : Point) (steps : ℕ)
    (h : 2 ≤ steps) :
    (generateBezierPoints p0 p1 p2 p3 steps).getLast? = some p3 := by
  obtain ⟨m, rfl⟩ : ∃ m, steps = m + 1 := ⟨steps - 1, by omega⟩
  unfold generateBezierPoints
  rw [List.range_succ, List.map_append, List.map_cons, List.map_nil,
    List.getLast?_concat]
  have hm1 : ((m + 1 - 1 : ℕ) : ℚ) = (m : ℚ) := by norm_num
  have hm0 : ((m : ℕ) : ℚ) ≠ 0 := Nat.cast_ne_zero.mpr (by omega)
  rw [hm1, div_self hm0, easeInOutCubic_one, cubicBezier_one]

lemma calculateSteps_ge_two (cfg : MouseConfig) (sd d : ℚ) :
    2 ≤ calculateSteps cfg sd d := by
  simp only [calculateSteps]
  split_ifs with h1 h2 <;> omega

lemma correctionSteps_ge_five (d : ℚ) : 5 ≤ correctionSteps d := by
  simp only [correctionSteps]
  split_ifs with h1 <;> omega

lemma generateCurvePath_length (P : MathPrims) (cfg : MouseConfig)
    (cp : ℚ × ℚ × ℚ) (sd : ℚ) (start e : Point) (d : ℚ) :
    (generateCurvePath P cfg cp sd start e d).length
      = calculateSteps cfg sd d := by
  simp only [generateCurvePath]
  exact generateBezierPoints_length _ _ _ _ _

lemma generateCorrectionPath_length (P : MathPrims) (cfg : MouseConfig)
    (cp : ℚ × ℚ × ℚ) (start e : Point) (d : ℚ) :
    (generateCorrectionPath P cfg cp start e d).length = correctionSteps d := by
  simp only [generateCorrectionPath]
  exact generateBezierPoints_length _ _ _ _ _

lemma generateCurvePath_getLast (P : MathPrims) (cfg : MouseConfig)
    (cp : ℚ × ℚ × ℚ) (sd : ℚ) (start e : Point) (d : ℚ) :
    (generateCurvePath P cfg cp sd start e d).getLast? = some e := by
  simp only [generateCurvePath]
  exact generateBezierPoints_getLast _ _ _ _ _ (calculateSteps_ge_two cfg sd d)

lemma generateCorrectionPath_getLast (P : MathPrims) (cfg : MouseConfig)
    (cp : ℚ × ℚ × ℚ) (start e : Point) (d : ℚ) :
    (generateCorrectionPath P cfg cp start e d).getLast? = some e := by
  simp only [generateCorrectionPath]
  exact generateBezierPoints_getLast _ _ _ _ _
    (by have := correctionSteps_ge_five d; omega)

lemma determineTargets_fst (P : MathPrims) (cfg : MouseConfig)
    (od fd : ℚ) (start e : Point) (d : ℚ) (so : Bool) :
    (determineTargets P cfg od fd start e d so).1 = e := by
  simp only [determineTargets]
  split_ifs <;> rfl

lemma hasOvershot_false {f o : Point} (h : hasOvershot f o = false) :
    f = o := by
  simp only [hasOvershot, decide_eq_false_iff_not, not_or, not_not] at h
  cases f
  cases o
  simp only [Point.mk.injEq]
  exact h

end Mouse

/-- C1 (amended): for every direction string, integer distance (negative
distance normalized to its absolute value) and non-negative random draws,
the `Distance` fields of the sequence returned by `HumanScroll` sum in
absolute value to AT MOST the absolute value of the requested distance.
The original claim's exact equality fails: the chunk loop runs at most
`numChunks` iterations and the ×0.7–1.3 random variation can leave the
total short (see the counterexample). -/
theorem C1_scroll_sum_at_most (variation delayMul jitter : ℕ → ℚ)
    (finalDraw : ℕ) (direction : String) (distance chunkMin chunkMax : ℤ)
    (hv : ∀ n, 0 ≤ variation n) :
    ((Scroll.HumanScroll variation delayMul jitter finalDraw direction
        distance chunkMin chunkMax).map (fun a => |a.Distance|)).sum
      ≤ |distance| := by
  have h12 := Scroll.chunkMinNorm_le_chunkMaxNorm chunkMin chunkMax
  simp only [Scroll.HumanScroll]
  set mult : ℤ := if direction = "up" ∨ direction = "backward" then -1 else 1
    with hmdef
  set cMinN := Scroll.chunkMinNorm chunkMin with hcmin
  set cMaxN := Scroll.chunkMaxNorm chunkMin chunkMax with hcmax
  set nc := Scroll.scrollNumChunks distance.natAbs
    (Scroll.scrollAvgChunk cMinN cMaxN) with hnc
  set A := Scroll.scrollLoop variation delayMul jitter cMinN cMaxN nc mult
    (List.range nc) (distance.natAbs : ℤ) with hAdef
  have hm : mult = 1 ∨ mult = -1 := by
    rw [hmdef]; split_ifs; exacts [Or.inr rfl, Or.inl rfl]
  have hmain : (A.map (fun a => |a.Distance|)).sum ≤ (distance.natAbs : ℤ) := by
    rw [hAdef]
    exact Scroll.scrollLoop_absSum_le variation delayMul jitter hv cMinN cMaxN
      nc h12 mult hm (List.range nc) (distance.natAbs : ℤ) (by positivity)
  split_ifs with hA
  · simp only [List.map_nil, List.sum_nil]
    exact abs_nonneg distance
  · rw [List.map_append, List.sum_append, Int.abs_eq_natAbs]
    simpa using hmain

/-- C1 counterexample: direction "down", requested distance 100, chunk
bounds 50/50 (average 50, hence 2 chunks).  With every variation draw 0
(a legitimate `Float64()` value, giving the ×0.7 low end) each chunk is
`int(50·0.7) = 35`, so the emitted distances sum to 70, not 100. -/
theorem C1_scroll_sum_counterexample :
    ((Scroll.HumanScroll (fun _ => 0) (fun _ => 0) (fun _ => 0) 0 "down" 100
        50 50).map (fun a => |a.Distance|)).sum ≠ 100 := by
  norm_num [Scroll.HumanScroll, Scroll.scrollLoop, Scroll.scrollChunkAction,
    Scroll.scrollChunkSize, Scroll.scrollT, Scroll.easeInOutCubic,
    Scroll.clamp01, Scroll.scrollAvgChunk, Scroll.scrollNumChunks,
    Scroll.chunkMinNorm, Scroll.chunkMaxNorm, ratTrunc, List.range_succ,
    Int.floor_ofNat, show ¬(("down":String) = "up") from by decide,
    show ¬(("down":String) = "backward") from by decide]
  decide

/-- C1 witness: the amended bound applied at direction "down", distance
100, chunk bounds 50/50 and all-zero draws. -/
theorem C1_scroll_sum_witness :
    (∀ n : ℕ, (0:ℚ) ≤ (fun _ : ℕ => (0:ℚ)) n) ∧
    ((Scroll.HumanScroll (fun _ => 0) (fun _ => 0) (fun _ => 0) 0 "down" 100
        50 50).map (fun a => |a.Distance|)).sum ≤ |(100:ℤ)| :=
  ⟨fun _ => le_refl 0,
    C1_scroll_sum_at_most (fun _ => 0) (fun _ => 0) (fun _ => 0) 0 "down" 100
      50 50 (fun _ => le_refl 0)⟩

/-- C7 (amended): for every direction and every NONZERO distance (the
original claim's "every non-negative distance" fails at 0, where the
output is empty — see the counterexample), `HumanScroll` emits at least
one chunk action (and at most the computed `numChunks` target), followed
by exactly one zero-distance settle pause whose delay is
`200 + Intn 300` ms, hence in `[200ms, 500ms)`. -/
theorem C7_scroll_settle (variation delayMul jitter : ℕ → ℚ) (finalDraw : ℕ)
    (direction : String) (distance chunkMin chunkMax : ℤ)
    (hd : distance ≠ 0) :
    ∃ chunks : List Scroll.ScrollAction,
      Scroll.HumanScroll variation delayMul jitter finalDraw direction
          distance chunkMin chunkMax
        = chunks ++ [⟨0, 200 + (finalDraw % 300 : ℕ)⟩] ∧
      chunks ≠ [] ∧
      chunks.length ≤ Scroll.scrollNumChunks distance.natAbs
        (Scroll.scrollAvgChunk (Scroll.chunkMinNorm chunkMin)
          (Scroll.chunkMaxNorm chunkMin chunkMax)) ∧
      (200:ℤ) ≤ 200 + ((finalDraw % 300 : ℕ) : ℤ) ∧
      200 + ((finalDraw % 300 : ℕ) : ℤ) < 500 := by
  simp only [Scroll.HumanScroll]
  set mult : ℤ := if direction = "up" ∨ direction = "backward" then -1 else 1
    with hmdef
  set cMinN := Scroll.chunkMinNorm chunkMin with hcmin
  set cMaxN := Scroll.chunkMaxNorm chunkMin chunkMax with hcmax
  set nc := Scroll.scrollNumChunks distance.natAbs
    (Scroll.scrollAvgChunk cMinN cMaxN) with hnc
  have hncpos : 1 ≤ nc := by
    rw [hnc]; exact Scroll.scrollNumChunks_pos _ _
  have hrange : List.range nc ≠ [] := by
    simp [List.range_eq_nil]; omega
  obtain ⟨i, rest, hcons⟩ := List.exists_cons_of_ne_nil hrange
  have hpos : (0:ℤ) < (distance.natAbs : ℤ) := by
    have := Int.natAbs_pos.mpr hd; omega
  set A := Scroll.scrollLoop variation delayMul jitter cMinN cMaxN nc mult
    (List.range nc) (distance.natAbs : ℤ) with hAdef
  have hA : A ≠ [] := by
    rw [hAdef, hcons]
    simp only [Scroll.scrollLoop]
    rw [if_neg (by omega)]
    exact List.cons_ne_nil _ _
  rw [if_neg hA]
  refine ⟨A, rfl, hA, ?_, by omega, ?_⟩
  · have := Scroll.scrollLoop_length_le variation delayMul jitter cMinN cMaxN
      nc mult (List.range nc) (distance.natAbs : ℤ)
    rw [← hAdef] at this
    simpa using this

  · have := Nat.mod_lt finalDraw (show 0 < 300 by norm_num)
    omega

/-- C7 counterexample: at the non-negative requested distance 0 the chunk
loop never runs, so `HumanScroll` returns the empty sequence — there is no
settle pause at all, contradicting the claim for "every non-negative total
distance". -/
theorem C7_scroll_settle_counterexample :
    Scroll.HumanScroll (fun _ => 0) (fun _ => 0) (fun _ => 0) 0 "down" 0 50
      100 = [] := by
  norm_num [Scroll.HumanScroll, Scroll.scrollLoop, Scroll.scrollAvgChunk,
    Scroll.scrollNumChunks, Scroll.chunkMinNorm, Scroll.chunkMaxNorm,
    List.range_succ]

/-- C7 witness: the amended statement applied at direction "down",
distance 100, chunk bounds 50/100. -/
theorem C7_scroll_settle_witness :
    (100:ℤ) ≠ 0 ∧
    (∃ chunks : List Scroll.ScrollAction,
      Scroll.HumanScroll (fun _ => 0) (fun _ => 0) (fun _ => 0) 7 "down" 100
          50 100
        = chunks ++ [⟨0, 200 + (7 % 300 : ℕ)⟩] ∧
      chunks ≠ [] ∧
      chunks.length ≤ Scroll.scrollNumChunks (100:ℤ).natAbs
        (Scroll.scrollAvgChunk (Scroll.chunkMinNorm 50)
          (Scroll.chunkMaxNorm 50 100)) ∧
      (200:ℤ) ≤ 200 + ((7 % 300 : ℕ) : ℤ) ∧
      200 + ((7 % 300 : ℕ) : ℤ) < 500) :=
  ⟨by norm_num,
    C7_scroll_settle (fun _ => 0) (fun _ => 0) (fun _ => 0) 7 "down" 100 50
      100 (by norm_num)⟩

/-- C9: every action emitted by `HumanScroll` has `Distance ≤ 0` when the
direction string is "up" or "backward", and `Distance ≥ 0` for every other
direction string — unrecognized directions are treated as forward
scrolling, not rejected. -/
theorem C9_scroll_direction_sign (variation delayMul jitter : ℕ → ℚ)
    (finalDraw : ℕ) (direction : String) (distance chunkMin chunkMax : ℤ)
    (hv : ∀ n, 0 ≤ variation n) :
    (direction = "up" ∨ direction = "backward" →
      ∀ a ∈ Scroll.HumanScroll variation delayMul jitter finalDraw direction
        distance chunkMin chunkMax, a.Distance ≤ 0) ∧
    (¬(direction = "up" ∨ direction = "backward") →
      ∀ a ∈ Scroll.HumanScroll variation delayMul jitter finalDraw direction
        distance chunkMin chunkMax, 0 ≤ a.Distance) := by
  have h12 := Scroll.chunkMinNorm_le_chunkMaxNorm chunkMin chunkMax
  constructor
  · intro hdir a ha
    simp only [Scroll.HumanScroll] at ha
    rw [if_pos hdir] at ha
    split_ifs at ha with hA
    · simp at ha
    · rcases List.mem_append.mp ha with h | h
      · obtain ⟨s, hs0, hds⟩ := Scroll.scrollLoop_sign variation delayMul
          jitter hv _ _ _ h12 (-1) _ _ a h
        rw [hds, mul_neg_one]; omega
      · simp only [List.mem_singleton] at h
        rw [h]
  · intro hdir a ha
    simp only [Scroll.HumanScroll] at ha
    rw [if_neg hdir] at ha
    split_ifs at ha with hA
    · simp at ha
    · rcases List.mem_append.mp ha with h | h
      · obtain ⟨s, hs0, hds⟩ := Scroll.scrollLoop_sign variation delayMul
          jitter hv _ _ _ h12 1 _ _ a h
        rw [hds, mul_one]; exact hs0
      · simp only [List.mem_singleton] at h
        rw [h]

/-- C9 witness: the sign property applied at direction "up", distance 100,
chunk bounds 50/50 and all-zero draws. -/
theorem C9_scroll_direction_sign_witness :
    (∀ n : ℕ, (0:ℚ) ≤ (fun _ : ℕ => (0:ℚ)) n) ∧
    (∀ a ∈ Scroll.HumanScroll (fun _ => 0) (fun _ => 0) (fun _ => 0) 0 "up"
      100 50 50, a.Distance ≤ 0) :=
  ⟨fun _ => le_refl 0,
    (C9_scroll_direction_sign (fun _ => 0) (fun _ => 0) (fun _ => 0) 0 "up"
      100 50 50 (fun _ => le_refl 0)).1 (Or.inl rfl)⟩

/-- C5 (amended): `HumanType` on the empty string returns the empty
sequence, and for every text, with typo probability 0 and non-negative
typo draws, it returns exactly `text.length` key actions, the i-th
emitting the i-th character; provided the text itself contains no
backspace character, no backspace action appears anywhere.  The original
claim without that proviso fails when the text contains `'\b'` (see the
counterexample). -/
theorem C5_keyboard_plain_typing (typoDraw : ℕ → ℚ)
    (typoPick pausePick : ℕ → ℕ) (dd0 dd1 dd2 : ℕ → Keyboard.DelayDraws)
    (wpmDraw : ℕ) (text : List Char) (wpmMin wpmMax : ℤ) (typoProb : ℚ) :
    Keyboard.HumanType typoDraw typoPick pausePick dd0 dd1 dd2 wpmDraw []
        wpmMin wpmMax typoProb = [] ∧
    ((∀ n, 0 ≤ typoDraw n) → Keyboard.backspaceChar ∉ text →
      (Keyboard.HumanType typoDraw typoPick pausePick dd0 dd1 dd2 wpmDraw
          text wpmMin wpmMax 0).length = text.length ∧
      (Keyboard.HumanType typoDraw typoPick pausePick dd0 dd1 dd2 wpmDraw
          text wpmMin wpmMax 0).map (fun a => a.Key)
        = text.map (fun c => String.mk [c]) ∧
      (Keyboard.HumanType typoDraw typoPick pausePick dd0 dd1 dd2 wpmDraw
          text wpmMin wpmMax 0).map (fun a => a.Typ)
        = text.map (fun _ => Keyboard.ActionType.Key) ∧
      (∀ a ∈ Keyboard.HumanType typoDraw typoPick pausePick dd0 dd1 dd2
          wpmDraw text wpmMin wpmMax 0,
        ¬(a.Typ = Keyboard.ActionType.Key ∧
          a.Key = String.mk [Keyboard.backspaceChar]))) := by
  refine ⟨rfl, fun hn hb => ?_⟩
  have hout : Keyboard.HumanType typoDraw typoPick pausePick dd0 dd1 dd2
      wpmDraw text wpmMin wpmMax 0
      = (List.enumFrom 0 text).map (fun p => Keyboard.directAction (dd0 p.1)
          (Keyboard.typingBaseDelay wpmDraw wpmMin wpmMax) p.2) := by
    show Keyboard.typeLoop (Keyboard.typoProbNorm 0) _ _ _ _ _ _ _ text 0 = _
    rw [show Keyboard.typoProbNorm 0 = 0 from rfl]
    exact Keyboard.typeLoop_no_typo _ typoDraw typoPick pausePick dd0 dd1 dd2
      hn text 0
  refine ⟨?_, ?_, ?_, ?_⟩
  · rw [hout]; simp
  · rw [hout, List.map_map]
    rw [show ((fun a => a.Key) ∘ fun p : ℕ × Char =>
        Keyboard.directAction (dd0 p.1)
          (Keyboard.typingBaseDelay wpmDraw wpmMin wpmMax) p.2)
      = (fun c => String.mk [c]) ∘ Prod.snd from rfl]
    rw [← List.map_map, List.enumFrom_map_snd]
  · rw [hout, List.map_map]
    rw [show ((fun a => a.Typ) ∘ fun p : ℕ × Char =>
        Keyboard.directAction (dd0 p.1)
          (Keyboard.typingBaseDelay wpmDraw wpmMin wpmMax) p.2)
      = (fun _ => Keyboard.ActionType.Key) ∘ Prod.snd from rfl]
    rw [← List.map_map, List.enumFrom_map_snd]
  · intro a ha
    rw [hout] at ha
    obtain ⟨p, hp, rfl⟩ := List.mem_map.mp ha
    rintro ⟨-, hkey⟩
    have hc : p.2 = Keyboard.backspaceChar := by
      have := congrArg String.data hkey
      simpa [Keyboard.directAction] using this
    have hmem : p.2 ∈ text := by
      have := List.mem_map_of_mem Prod.snd hp
      rwa [List.enumFrom_map_snd] at this
    rw [hc] at hmem
    exact hb hmem

/-- C5 counterexample: with typo probability 0 and the single-character
text `"\b"`, the unique emitted action is itself a backspace key action,
so "no backspace action anywhere in the output" fails as stated for
arbitrary texts. -/
theorem C5_keyboard_plain_typing_counterexample :
    (Keyboard.HumanType (fun _ => 0) (fun _ => 0) (fun _ => 0)
        (fun _ => ⟨0, 0, 0⟩) (fun _ => ⟨0, 0, 0⟩) (fun _ => ⟨0, 0, 0⟩) 0
        [Keyboard.backspaceChar] 60 60 0).map (fun a => (a.Typ, a.Key))
      = [(Keyboard.ActionType.Key, String.mk [Keyboard.backspaceChar])] := rfl

/-- C5 witness: the amended statement applied to the text "hi" with WPM
bounds 60/60, zero draws. -/
theorem C5_keyboard_plain_typing_witness :
    (∀ n : ℕ, (0:ℚ) ≤ (fun _ : ℕ => (0:ℚ)) n) ∧
    Keyboard.backspaceChar ∉ (['h', 'i'] : List Char) ∧
    ((Keyboard.HumanType (fun _ => 0) (fun _ => 0) (fun _ => 0)
        (fun _ => ⟨0, 0, 0⟩) (fun _ => ⟨0, 0, 0⟩) (fun _ => ⟨0, 0, 0⟩) 0
        ['h', 'i'] 60 60 0).length = (['h', 'i'] : List Char).length ∧
      (Keyboard.HumanType (fun _ => 0) (fun _ => 0) (fun _ => 0)
        (fun _ => ⟨0, 0, 0⟩) (fun _ => ⟨0, 0, 0⟩) (fun _ => ⟨0, 0, 0⟩) 0
        ['h', 'i'] 60 60 0).map (fun a => a.Key)
        = (['h', 'i'] : List Char).map (fun c => String.mk [c]) ∧
      (Keyboard.HumanType (fun _ => 0) (fun _ => 0) (fun _ => 0)
        (fun _ => ⟨0, 0, 0⟩) (fun _ => ⟨0, 0, 0⟩) (fun _ => ⟨0, 0, 0⟩) 0
        ['h', 'i'] 60 60 0).map (fun a => a.Typ)
        = (['h', 'i'] : List Char).map (fun _ => Keyboard.ActionType.Key) ∧
      (∀ a ∈ Keyboard.HumanType (fun _ => 0) (fun _ => 0) (fun _ => 0)
          (fun _ => ⟨0, 0, 0⟩) (fun _ => ⟨0, 0, 0⟩) (fun _ => ⟨0, 0, 0⟩) 0
          ['h', 'i'] 60 60 0,
        ¬(a.Typ = Keyboard.ActionType.Key ∧
          a.Key = String.mk [Keyboard.backspaceChar]))) :=
  ⟨fun _ => le_refl 0, by decide,
    (C5_keyboard_plain_typing (fun _ => 0) (fun _ => 0) (fun _ => 0)
      (fun _ => ⟨0, 0, 0⟩) (fun _ => ⟨0, 0, 0⟩) (fun _ => ⟨0, 0, 0⟩) 0
      ['h', 'i'] 60 60 0).2 (fun _ => le_refl 0) (by decide)⟩

/-- C4: with typo probability 1 (every `Float64()` draw is `< 1`) and a
text of at least 2 runes, `HumanType` emits for every non-final character
exactly the ordered 4-action group (typo key, pause delay action,
backspace key, correct key) and a single key action for the final
character; extracting only the correct emissions (the 4th action of each
group plus the directly-typed final character, `correctKeys`)
reconstructs the text exactly. -/
theorem C4_keyboard_typo_structure (typoDraw : ℕ → ℚ)
    (typoPick pausePick : ℕ → ℕ) (dd0 dd1 dd2 : ℕ → Keyboard.DelayDraws)
    (wpmDraw : ℕ) (text : List Char) (wpmMin wpmMax : ℤ)
    (h1 : ∀ n, typoDraw n < 1) (h2 : 2 ≤ text.length) :
    Keyboard.HumanType typoDraw typoPick pausePick dd0 dd1 dd2 wpmDraw text
        wpmMin wpmMax 1
      = (List.enumFrom 0 text.dropLast).flatMap
          (fun p => Keyboard.typoGroup (typoPick p.1) (pausePick p.1)
            (dd0 p.1) (dd1 p.1) (dd2 p.1)
            (Keyboard.typingBaseDelay wpmDraw wpmMin wpmMax) p.2)
        ++ [Keyboard.directAction (dd0 (text.length - 1))
            (Keyboard.typingBaseDelay wpmDraw wpmMin wpmMax)
            (text.getLastD ' ')] ∧
    (∀ i c, (Keyboard.typoGroup (typoPick i) (pausePick i) (dd0 i) (dd1 i)
          (dd2 i) (Keyboard.typingBaseDelay wpmDraw wpmMin wpmMax) c).map
          (fun a => (a.Typ, a.Key))
        = [(Keyboard.ActionType.Key,
              String.mk [Keyboard.generateTypo (typoPick i) c]),
           (Keyboard.ActionType.Delay, ""),
           (Keyboard.ActionType.Key, String.mk [Keyboard.backspaceChar]),
           (Keyboard.ActionType.Key, String.mk [c])]) ∧
    Keyboard.correctKeys (Keyboard.HumanType typoDraw typoPick pausePick dd0
        dd1 dd2 wpmDraw text wpmMin wpmMax 1)
      = text.map (fun c => String.mk [c]) := by
  have htext : text ≠ [] := by
    intro h
    rw [h] at h2
    simp at h2
  have hstruct : Keyboard.HumanType typoDraw typoPick pausePick dd0 dd1 dd2
      wpmDraw text wpmMin wpmMax 1
      = (List.enumFrom 0 text.dropLast).flatMap
          (fun p => Keyboard.typoGroup (typoPick p.1) (pausePick p.1)
            (dd0 p.1) (dd1 p.1) (dd2 p.1)
            (Keyboard.typingBaseDelay wpmDraw wpmMin wpmMax) p.2)
        ++ [Keyboard.directAction (dd0 (text.length - 1))
            (Keyboard.typingBaseDelay wpmDraw wpmMin wpmMax)
            (text.getLastD ' ')] := by
    show Keyboard.typeLoop (Keyboard.typoProbNorm 1) _ _ _ _ _ _ _ text 0 = _
    rw [show Keyboard.typoProbNorm 1 = 1 from rfl]
    have := Keyboard.typeLoop_all_typo
      (Keyboard.typingBaseDelay wpmDraw wpmMin wpmMax) typoDraw typoPick
      pausePick dd0 dd1 dd2 h1 text 0 htext
    rwa [Nat.zero_add] at this
  refine ⟨hstruct, fun i c => rfl, ?_⟩
  rw [hstruct, Keyboard.correctKeys_flatMap]
  have hlastchar : text.getLastD ' ' = text.getLast htext := by
    rw [List.getLastD_eq_getLast?, List.getLast?_eq_getLast text htext]
    rfl
  have hfinal : Keyboard.correctKeys [Keyboard.directAction
      (dd0 (text.length - 1)) (Keyboard.typingBaseDelay wpmDraw wpmMin
        wpmMax) (text.getLastD ' ')]
      = [String.mk [text.getLastD ' ']] := rfl
  rw [hfinal, hlastchar]
  rw [show ((fun p : ℕ × Char => String.mk [p.2])
      = (fun c => String.mk [c]) ∘ Prod.snd) from rfl]
  rw [← List.map_map, List.enumFrom_map_snd]
  rw [show ([String.mk [text.getLast htext]])
      = (List.map (fun c => String.mk [c]) [text.getLast htext]) from rfl]
  rw [← List.map_append, List.dropLast_append_getLast htext]

/-- C4 witness: the structure and reconstruction applied to the text "ab"
with WPM bounds 60/60 and all-zero draws (typo draw 0 < probability 1 at
every character). -/
theorem C4_keyboard_typo_structure_witness :
    (∀ n : ℕ, (fun _ : ℕ => (0:ℚ)) n < 1) ∧
    2 ≤ (['a', 'b'] : List Char).length ∧
    (Keyboard.HumanType (fun _ => 0) (fun _ => 0) (fun _ => 0)
        (fun _ => ⟨0, 0, 0⟩) (fun _ => ⟨0, 0, 0⟩) (fun _ => ⟨0, 0, 0⟩) 0
        ['a', 'b'] 60 60 1
      = (List.enumFrom 0 (['a', 'b'] : List Char).dropLast).flatMap
          (fun p => Keyboard.typoGroup 0 0 ⟨0, 0, 0⟩ ⟨0, 0, 0⟩ ⟨0, 0, 0⟩
            (Keyboard.typingBaseDelay 0 60 60) p.2)
        ++ [Keyboard.directAction ⟨0, 0, 0⟩ (Keyboard.typingBaseDelay 0 60 60)
            ((['a', 'b'] : List Char).getLastD ' ')] ∧
      (∀ _i : ℕ, ∀ c : Char, (Keyboard.typoGroup 0 0 ⟨0, 0, 0⟩ ⟨0, 0, 0⟩
            ⟨0, 0, 0⟩ (Keyboard.typingBaseDelay 0 60 60) c).map
            (fun a => (a.Typ, a.Key))
          = [(Keyboard.ActionType.Key, String.mk [Keyboard.generateTypo 0 c]),
             (Keyboard.ActionType.Delay, ""),
             (Keyboard.ActionType.Key, String.mk [Keyboard.backspaceChar]),
             (Keyboard.ActionType.Key, String.mk [c])]) ∧
      Keyboard.correctKeys (Keyboard.HumanType (fun _ => 0) (fun _ => 0)
          (fun _ => 0) (fun _ => ⟨0, 0, 0⟩) (fun _ => ⟨0, 0, 0⟩)
          (fun _ => ⟨0, 0, 0⟩) 0 ['a', 'b'] 60 60 1)
        = (['a', 'b'] : List Char).map (fun c => String.mk [c])) :=
  ⟨fun _ => by norm_num, by decide,
    by
      have h := C4_keyboard_typo_structure (fun _ => 0) (fun _ => 0)
        (fun _ => 0) (fun _ => ⟨0, 0, 0⟩) (fun _ => ⟨0, 0, 0⟩)
        (fun _ => ⟨0, 0, 0⟩) 0 ['a', 'b'] 60 60 (fun _ => by norm_num)
        (by decide)
      exact h⟩

/-- C6 (amended): the `delaySeconds` value computed by `calculateDelay`
equals the base delay × its random variance × the category multiplier,
plus an added random jitter term of `jitterDraw · 0.01` seconds, which for
any `Float64()` draw lies in `[0ms, 10ms)` — NOT strictly below 1ms as
originally claimed (see the counterexample). -/
theorem C6_keyboard_delay_structure (v c j base : ℚ) (ch : Char)
    (hj0 : 0 ≤ j) (hj1 : j < 1) :
    Keyboard.calculateDelaySeconds v c j base ch
        = base * (4/5 + v * (2/5)) * Keyboard.categoryMultiplier c ch
          + j * (1/100) ∧
    0 ≤ j * (1/100) ∧ j * (1/100) < 1/100 :=
  ⟨rfl, by positivity, by linarith⟩

/-- C6 counterexample: with jitter draw ½ the added jitter term is 5ms,
which is not strictly less than 1 millisecond. -/
theorem C6_keyboard_delay_counterexample :
    Keyboard.calculateDelaySeconds 0 0 (1/2) 0 'a'
        - Keyboard.calculateDelaySeconds 0 0 0 0 'a' = 1/200 ∧
    ¬((1:ℚ)/200 < 1/1000) := by
  constructor
  · norm_num [Keyboard.calculateDelaySeconds, Keyboard.categoryMultiplier]
  · norm_num

/-- C6 witness: the amended structure applied at variance draw 0, category
draw 0, jitter draw ½, base delay 1 and character 'a'. -/
theorem C6_keyboard_delay_structure_witness :
    (0:ℚ) ≤ 1/2 ∧ (1:ℚ)/2 < 1 ∧
    (Keyboard.calculateDelaySeconds 0 0 (1/2) 1 'a'
        = 1 * (4/5 + 0 * (2/5)) * Keyboard.categoryMultiplier 0 'a'
          + (1/2) * (1/100) ∧
      0 ≤ (1:ℚ)/2 * (1/100) ∧ (1:ℚ)/2 * (1/100) < 1/100) :=
  ⟨by norm_num, by norm_num,
    C6_keyboard_delay_structure 0 0 (1/2) 1 'a' (by norm_num) (by norm_num)⟩

/-- C2: whenever the computed start-to-end distance is at least the
minimal movement threshold 1.0, `GetPath` returns a non-empty sequence
whose last point equals the end point exactly — both when the overshoot
branch is taken (the corrective segment ends at the final target) and when
it is not (the main segment's last Bézier sample is at eased parameter 1,
which is exactly the end point). -/
theorem C2_mouse_path_ends_at_target (P : Mouse.MathPrims)
    (cfg : Mouse.MouseConfig) (overshootDraw factorDraw : ℚ)
    (cpA : ℚ × ℚ × ℚ) (speedDraw : ℚ) (cpB : ℚ × ℚ × ℚ)
    (startX startY endX endY : ℚ) (shouldOvershoot : Bool)
    (h : 1 ≤ Mouse.calculateDistance P ⟨startX, startY⟩ ⟨endX, endY⟩) :
    Mouse.GetPath P cfg overshootDraw factorDraw cpA speedDraw cpB startX
        startY endX endY shouldOvershoot ≠ [] ∧
    (Mouse.GetPath P cfg overshootDraw factorDraw cpA speedDraw cpB startX
        startY endX endY shouldOvershoot).getLast?
      = some ⟨endX, endY⟩ := by
  simp only [Mouse.GetPath]
  rw [if_neg (not_lt.mpr h)]
  set d := Mouse.calculateDistance P ⟨startX, startY⟩ ⟨endX, endY⟩ with hd
  set td := Mouse.determineTargets P cfg overshootDraw factorDraw
    ⟨startX, startY⟩ ⟨endX, endY⟩ d shouldOvershoot with htd
  have hfst : td.1 = ⟨endX, endY⟩ := by
    rw [htd]
    exact Mouse.determineTargets_fst P cfg overshootDraw factorDraw
      ⟨startX, startY⟩ ⟨endX, endY⟩ d shouldOvershoot
  by_cases hov : Mouse.hasOvershot td.1 td.2 = true
  · rw [if_pos hov]
    constructor
    · intro hnil
      have hlen := congrArg List.length hnil
      rw [List.length_append, Mouse.generateCorrectionPath_length] at hlen
      have := Mouse.correctionSteps_ge_five d
      simp at hlen
      omega
    · rw [List.getLast?_append, Mouse.generateCorrectionPath_getLast, hfst]
      rfl
  · rw [if_neg hov]
    have heq : td.1 = td.2 :=
      Mouse.hasOvershot_false (Bool.eq_false_iff.mpr hov)
    constructor
    · intro hnil
      have hlen := congrArg List.length hnil
      rw [Mouse.generateCurvePath_length] at hlen
      have := Mouse.calculateSteps_ge_two cfg speedDraw d
      simp at hlen
      omega
    · rw [Mouse.generateCurvePath_getLast, ← heq, hfst]

/-- C2 witness: the property applied with an uninterpreted square root
returning 5 (so the distance check passes), overshoot disabled, at start
(0,0) and end (3,4). -/
theorem C2_mouse_path_ends_at_target_witness :
    1 ≤ Mouse.calculateDistance ⟨fun _ => 5, fun _ => 0, fun _ => 0,
        fun _ _ => 0⟩ ⟨0, 0⟩ ⟨3, 4⟩ ∧
    (Mouse.GetPath ⟨fun _ => 5, fun _ => 0, fun _ => 0, fun _ _ => 0⟩
        ⟨1, 1, 0, 0, 0, 0, 0, 0, 0⟩ 0 0 ⟨0, 0, 0⟩ 0 ⟨0, 0, 0⟩ 0 0 3 4
        false ≠ [] ∧
      (Mouse.GetPath ⟨fun _ => 5, fun _ => 0, fun _ => 0, fun _ _ => 0⟩
          ⟨1, 1, 0, 0, 0, 0, 0, 0, 0⟩ 0 0 ⟨0, 0, 0⟩ 0 ⟨0, 0, 0⟩ 0 0 3 4
          false).getLast? = some ⟨3, 4⟩) :=
  ⟨by norm_num [Mouse.calculateDistance],
    C2_mouse_path_ends_at_target ⟨fun _ => 5, fun _ => 0, fun _ => 0,
      fun _ _ => 0⟩ ⟨1, 1, 0, 0, 0, 0, 0, 0, 0⟩ 0 0 ⟨0, 0, 0⟩ 0 ⟨0, 0, 0⟩
      0 0 3 4 false (by norm_num [Mouse.calculateDistance])⟩

/-- C8: whenever `GetPath` takes the overshoot branch, the appended
corrective segment's step count equals the original start-to-end distance
times the fixed correction factor 0.2 truncated to an integer,
floor-clamped to a minimum of 5 — computed from the original full-path
distance (the `calculateDistance` of start and end), never from the
corrective segment's own length. -/
theorem C8_mouse_correction_from_original_distance (P : Mouse.MathPrims)
    (cfg : Mouse.MouseConfig) (overshootDraw factorDraw : ℚ)
    (cpA : ℚ × ℚ × ℚ) (speedDraw : ℚ) (cpB : ℚ × ℚ × ℚ)
    (startX startY endX endY : ℚ) (shouldOvershoot : Bool)
    (h : 1 ≤ Mouse.calculateDistance P ⟨startX, startY⟩ ⟨endX, endY⟩)
    (hov : Mouse.hasOvershot
        (Mouse.determineTargets P cfg overshootDraw factorDraw
          ⟨startX, startY⟩ ⟨endX, endY⟩
          (Mouse.calculateDistance P ⟨startX, startY⟩ ⟨endX, endY⟩)
          shouldOvershoot).1
        (Mouse.determineTargets P cfg overshootDraw factorDraw
          ⟨startX, startY⟩ ⟨endX, endY⟩
          (Mouse.calculateDistance P ⟨startX, startY⟩ ⟨endX, endY⟩)
          shouldOvershoot).2 = true) :
    Mouse.GetPath P cfg overshootDraw factorDraw cpA speedDraw cpB startX
        startY endX endY shouldOvershoot
      = Mouse.generateCurvePath P cfg cpA speedDraw ⟨startX, startY⟩
          (Mouse.determineTargets P cfg overshootDraw factorDraw
            ⟨startX, startY⟩ ⟨endX, endY⟩
            (Mouse.calculateDistance P ⟨startX, startY⟩ ⟨endX, endY⟩)
            shouldOvershoot).2
          (Mouse.calculateDistance P ⟨startX, startY⟩ ⟨endX, endY⟩)
        ++ Mouse.generateCorrectionPath P cfg cpB
          (Mouse.determineTargets P cfg overshootDraw factorDraw
            ⟨startX, startY⟩ ⟨endX, endY⟩
            (Mouse.calculateDistance P ⟨startX, startY⟩ ⟨endX, endY⟩)
            shouldOvershoot).2
          (Mouse.determineTargets P cfg overshootDraw factorDraw
            ⟨startX, startY⟩ ⟨endX, endY⟩
            (Mouse.calculateDistance P ⟨startX, startY⟩ ⟨endX, endY⟩)
            shouldOvershoot).1
          (Mouse.calculateDistance P ⟨startX, startY⟩ ⟨endX, endY⟩) ∧
    (Mouse.generateCorrectionPath P cfg cpB
        (Mouse.determineTargets P cfg overshootDraw factorDraw
          ⟨startX, startY⟩ ⟨endX, endY⟩
          (Mouse.calculateDistance P ⟨startX, startY⟩ ⟨endX, endY⟩)
          shouldOvershoot).2
        (Mouse.determineTargets P cfg overshootDraw factorDraw
          ⟨startX, startY⟩ ⟨endX, endY⟩
          (Mouse.calculateDistance P ⟨startX, startY⟩ ⟨endX, endY⟩)
          shouldOvershoot).1
        (Mouse.calculateDistance P ⟨startX, startY⟩ ⟨endX, endY⟩)).length
      = Mouse.correctionSteps
          (Mouse.calculateDistance P ⟨startX, startY⟩ ⟨endX, endY⟩) ∧
    Mouse.correctionSteps
        (Mouse.calculateDistance P ⟨startX, startY⟩ ⟨endX, endY⟩)
      = (max 5 (ratTrunc
          (Mouse.calculateDistance P ⟨startX, startY⟩ ⟨endX, endY⟩
            * (1/5)))).toNat ∧
    5 ≤ Mouse.correctionSteps
        (Mouse.calculateDistance P ⟨startX, startY⟩ ⟨endX, endY⟩) := by
  refine ⟨?_, Mouse.generateCorrectionPath_length _ _ _ _ _ _, ?_, ?_⟩
  · simp only [Mouse.GetPath]
    rw [if_neg (not_lt.mpr h), if_pos hov]
  · simp only [Mouse.correctionSteps]
    split_ifs with h5 <;> omega
  · exact Mouse.correctionSteps_ge_five _

/-- C8 witness: uninterpreted square root constantly 10, overshoot chance
1, overshoot factor bounds 1/10 (so the overshoot point is offset by 1
along the cosine direction), start (0,0), end (3,4): the branch fires and
the correction has `max 5 (int(10·0.2)) = 5` steps, never 2 (the short
segment's own length never enters). -/
theorem C8_mouse_correction_from_original_distance_witness :
    1 ≤ Mouse.calculateDistance ⟨fun _ => 10, fun _ => 1, fun _ => 0,
        fun _ _ => 0⟩ ⟨0, 0⟩ ⟨3, 4⟩ ∧
    Mouse.hasOvershot
        (Mouse.determineTargets ⟨fun _ => 10, fun _ => 1, fun _ => 0,
          fun _ _ => 0⟩ ⟨1, 1, 1, 1/10, 1/10, 0, 0, 0, 0⟩ 0 0 ⟨0, 0⟩ ⟨3, 4⟩
          (Mouse.calculateDistance ⟨fun _ => 10, fun _ => 1, fun _ => 0,
            fun _ _ => 0⟩ ⟨0, 0⟩ ⟨3, 4⟩) true).1
        (Mouse.determineTargets ⟨fun _ => 10, fun _ => 1, fun _ => 0,
          fun _ _ => 0⟩ ⟨1, 1, 1, 1/10, 1/10, 0, 0, 0, 0⟩ 0 0 ⟨0, 0⟩ ⟨3, 4⟩
          (Mouse.calculateDistance ⟨fun _ => 10, fun _ => 1, fun _ => 0,
            fun _ _ => 0⟩ ⟨0, 0⟩ ⟨3, 4⟩) true).2 = true ∧
    Mouse.correctionSteps (Mouse.calculateDistance ⟨fun _ => 10, fun _ => 1,
        fun _ => 0, fun _ _ => 0⟩ ⟨0, 0⟩ ⟨3, 4⟩)
      = (max 5 (ratTrunc (Mouse.calculateDistance ⟨fun _ => 10, fun _ => 1,
          fun _ => 0, fun _ _ => 0⟩ ⟨0, 0⟩ ⟨3, 4⟩ * (1/5)))).toNat :=
  ⟨by norm_num [Mouse.calculateDistance],
    by norm_num [Mouse.hasOvershot, Mouse.determineTargets,
      Mouse.calculateDistance],
    (C8_mouse_correction_from_original_distance ⟨fun _ => 10, fun _ => 1,
      fun _ => 0, fun _ _ => 0⟩ ⟨1, 1, 1, 1/10, 1/10, 0, 0, 0, 0⟩ 0 0
      ⟨0, 0, 0⟩ 0 ⟨0, 0, 0⟩ 0 0 3 4 true
      (by norm_num [Mouse.calculateDistance])
      (by norm_num [Mouse.hasOvershot, Mouse.determineTargets,
        Mouse.calculateDistance])).2.2.1⟩

/-- C3 (amended): `NewStealth` performs NO validation: every value of the
externally supplied configuration is stored unchanged in the
sub-generator configuration (and the config itself is shared as-is), so a
violated range survives construction; the per-call normalization inside
`HumanType`/`HumanScroll` is the only defensive clamping in the engine.
The original claim that construction validates non-negativity and
min ≤ max fails (see the counterexample). -/
theorem C3_construction_passthrough (config : Facade.StealthConfig) :
    (Facade.NewStealth config).mouse.SpeedMin = config.MouseSpeedMin ∧
    (Facade.NewStealth config).mouse.SpeedMax = config.MouseSpeedMax ∧
    (Facade.NewStealth config).mouse.OvershootChance
      = config.OvershootChance ∧
    (Facade.NewStealth config).mouse.OvershootDistMin
      = config.OvershootDistMin ∧
    (Facade.NewStealth config).mouse.OvershootDistMax
      = config.OvershootDistMax ∧
    (Facade.NewStealth config).mouse.ControlPointOffsetMin
      = config.ControlPointOffsetMin ∧
    (Facade.NewStealth config).mouse.ControlPointOffsetMax
      = config.ControlPointOffsetMax ∧
    (Facade.NewStealth config).mouse.ControlPointSpreadMin
      = config.ControlPointSpreadMin ∧
    (Facade.NewStealth config).mouse.ControlPointSpreadMax
      = config.ControlPointSpreadMax ∧
    (Facade.NewStealth config).config = config :=
  ⟨rfl, rfl, rfl, rfl, rfl, rfl, rfl, rfl, rfl, rfl⟩

/-- C3 counterexample: a configuration with mouse speed range 5/1
(min > max) passes through `NewStealth` unchanged: the stored Mouse
configuration violates min ≤ max, so construction does not validate. -/
theorem C3_construction_validation_counterexample :
    ¬((Facade.NewStealth ⟨40, 80, 1/50, 5, 1, 3/10, 1/10, 3/10, 1/5, 1/2,
        3/10, 7/10, 50, 200, 1/10, 1/2, 1920, 1920, 1080, 1080,
        false⟩).mouse.SpeedMin
      ≤ (Facade.NewStealth ⟨40, 80, 1/50, 5, 1, 3/10, 1/10, 3/10, 1/5, 1/2,
        3/10, 7/10, 50, 200, 1/10, 1/2, 1920, 1920, 1080, 1080,
        false⟩).mouse.SpeedMax) := by
  norm_num [Facade.NewStealth]

/-- C10: the facade treats exactly 0 as the omitted-parameter sentinel for
the WPM bounds, scroll chunk bounds and sleep parameters (each replaced by
its configuration default, so the caller can never pass those exact-zero
values through), while the typo probability is replaced only when
negative — `typoProb = 0` is honored as literally zero typos. -/
theorem C10_facade_zero_defaults (s : Facade.Stealth) (wpmMin wpmMax : ℤ)
    (typoProb : ℚ) (baseSeconds varianceSeconds : ℚ)
    (chunkMin chunkMax : ℤ) :
    (Facade.HumanTypeArgs s 0 wpmMax typoProb).1
      = s.config.TypingSpeedMin ∧
    (Facade.HumanTypeArgs s wpmMin 0 typoProb).2.1
      = s.config.TypingSpeedMax ∧
    (wpmMin ≠ 0 →
      (Facade.HumanTypeArgs s wpmMin wpmMax typoProb).1 = wpmMin) ∧
    (wpmMax ≠ 0 →
      (Facade.HumanTypeArgs s wpmMin wpmMax typoProb).2.1 = wpmMax) ∧
    (Facade.HumanTypeArgs s wpmMin wpmMax 0).2.2 = 0 ∧
    (typoProb < 0 →
      (Facade.HumanTypeArgs s wpmMin wpmMax typoProb).2.2
        = s.config.TypoProbability) ∧
    (0 ≤ typoProb →
      (Facade.HumanTypeArgs s wpmMin wpmMax typoProb).2.2 = typoProb) ∧
    (Facade.RandomSleepArgs s 0 varianceSeconds).1
      = s.config.BaseDelayMin ∧
    (Facade.RandomSleepArgs s baseSeconds 0).2
      = s.config.BaseDelayMax - s.config.BaseDelayMin ∧
    (Facade.HumanScrollArgs s 0 chunkMax).1 = s.config.ScrollChunkMin ∧
    (Facade.HumanScrollArgs s chunkMin 0).2 = s.config.ScrollChunkMax := by
  refine ⟨?_, ?_, ?_, ?_, ?_, ?_, ?_, ?_, ?_, ?_, ?_⟩
  · simp [Facade.HumanTypeArgs]
  · simp [Facade.HumanTypeArgs]
  · intro h; simp [Facade.HumanTypeArgs, h]
  · intro h; simp [Facade.HumanTypeArgs, h]
  · simp [Facade.HumanTypeArgs]
  · intro h; simp [Facade.HumanTypeArgs, h]
  · intro h; simp [Facade.HumanTypeArgs, not_lt.mpr h]
  · simp [Facade.RandomSleepArgs]
  · simp [Facade.RandomSleepArgs]
  · simp [Facade.HumanScrollArgs]
  · simp [Facade.HumanScrollArgs]

/-- C10 witness: the sentinel behavior applied to a concrete facade (built
from a concrete configuration) at wpm bounds 50/80, typo probability −1
(negative, so replaced by the default) and 0 (honored as zero). -/
theorem C10_facade_zero_defaults_witness :
    (Facade.HumanTypeArgs (Facade.NewStealth ⟨40, 80, 1/50, 1/2, 3/2, 3/10,
        1/10, 3/10, 1/5, 1/2, 3/10, 7/10, 50, 200, 1/10, 1/2, 1920, 1920,
        1080, 1080, false⟩) 0 80 (1/50)).1
      = (Facade.NewStealth ⟨40, 80, 1/50, 1/2, 3/2, 3/10, 1/10, 3/10, 1/5,
        1/2, 3/10, 7/10, 50, 200, 1/10, 1/2, 1920, 1920, 1080, 1080,
        false⟩).config.TypingSpeedMin ∧
    (Facade.HumanTypeArgs (Facade.NewStealth ⟨40, 80, 1/50, 1/2, 3/2, 3/10,
        1/10, 3/10, 1/5, 1/2, 3/10, 7/10, 50, 200, 1/10, 1/2, 1920, 1920,
        1080, 1080, false⟩) 50 80 (-1)).2.2
      = (Facade.NewStealth ⟨40, 80, 1/50, 1/2, 3/2, 3/10, 1/10, 3/10, 1/5,
        1/2, 3/10, 7/10, 50, 200, 1/10, 1/2, 1920, 1920, 1080, 1080,
        false⟩).config.TypoProbability ∧
    (Facade.HumanTypeArgs (Facade.NewStealth ⟨40, 80, 1/50, 1/2, 3/2, 3/10,
        1/10, 3/10, 1/5, 1/2, 3/10, 7/10, 50, 200, 1/10, 1/2, 1920, 1920,
        1080, 1080, false⟩) 50 80 0).2.2 = 0 ∧
    (Facade.HumanScrollArgs (Facade.NewStealth ⟨40, 80, 1/50, 1/2, 3/2,
        3/10, 1/10, 3/10, 1/5, 1/2, 3/10, 7/10, 50, 200, 1/10, 1/2, 1920,
        1920, 1080, 1080, false⟩) 0 120).1
      = (Facade.NewStealth ⟨40, 80, 1/50, 1/2, 3/2, 3/10, 1/10, 3/10, 1/5,
        1/2, 3/10, 7/10, 50, 200, 1/10, 1/2, 1920, 1920, 1080, 1080,
        false⟩).config.ScrollChunkMin := by
  obtain ⟨h1, h2, h3, h4, h5, h6, h7, h8, h9, h10, h11⟩ :=
    C10_facade_zero_defaults (Facade.NewStealth ⟨40, 80, 1/50, 1/2, 3/2,
      3/10, 1/10, 3/10, 1/5, 1/2, 3/10, 7/10, 50, 200, 1/10, 1/2, 1920,
      1920, 1080, 1080, false⟩) 50 80 (-1) 1 1 7 120
  exact ⟨h1, h6 (by norm_num), h5, h10⟩
